import Mathlib

/-!
Verification of the asset hydration engine of the question-bank viewer.

The embedding follows `src/question_service.py` (class `QuestionService`,
methods `_hydrate_html` / `get_question` and the nested regex callbacks
`replace_link_and_collect` / `replace_media_src`) and
`src/database_helpers.py` (`get_asset_type_from_db`,
`get_asset_document_by_id`, `get_content_asset_html`).

Modelling choices:
- Rich text is represented as a list of tokens (`Seg`).  A `Seg.anchor id text`
  token stands for one match of the anchor regex
  `<a[^>]*href="[[(.*?)]]"[^>]*>(.*?)</a>` (group 1 is the asset id, group 2
  the link text); a `Seg.mediaSrc id` token stands for one match of the media
  regex `src="[[(.*?)]]"(?=[^>]*>)` (only the `src` attribute of the media
  element, the rest of the tag lives in the neighbouring `raw` tokens);
  `Seg.raw s` is text in which neither pattern occurs.  `re.sub` replaces the
  matches left to right without rescanning the produced replacements, which is
  exactly a left-to-right map over the token list.
- The MongoDB stores are association lists keyed by `_id`; `find_one` returns
  the first binding.  File-backed collections (`Images`, `Audio`, `Videos`)
  store the document's `name` field; the content collections (`Pages`,
  `Tables`) store the document's `html` field, kept in already-tokenised form.
  A query against a collection name that does not exist in the deployment
  (MongoDB simply finds nothing there) returns `none`.
- The filesystem is an association list from paths to byte lists; `open` plus
  `base64.b64encode` is modelled by `find_one` plus an executable base64
  encoder over the bytes.
- The mutable `inline_assets` list and the `nonlocal current_asset_index` are
  threaded explicitly.  In addition the hydrator returns a ghost trace, one
  entry `(position, ordinal)` per `inline_assets.append`: `position` is the
  1-based position of the appended asset in the shared list right after the
  append, `ordinal` is the number embedded in the `<sup>[n]</sup>` replacement
  span for that asset (the same `idx + 1` value is used in both places, as in
  the source).  The trace is pure instrumentation: it records events the
  source performs, in the order it performs them, and lets the ordinal
  bookkeeping be stated once for all inputs.
- Recursion into nested page/table fragments is the only unbounded recursion
  in the source (`_hydrate_html` calls itself on the stored fragment markup),
  so the embedding spends one unit of fuel exactly there and nowhere else:
  a run that returns `some` is one the Python code completes, and an input on
  which every fuel returns `none` is one on which the Python code recurses
  without bound.
-/

/-- One token of rich text: plain text, one anchor-pattern match
(`<a href="[[id]]">text</a>`), or one media-pattern match (`src="[[id]]"`). -/
inductive Seg where
  | raw (s : String)
  | anchor (asset_id : String) (text : String)
  | mediaSrc (asset_id : String)
deriving DecidableEq, Repr

/-- models.py, `class AssetType(str, Enum)`. -/
inductive AssetType where
  | image
  | audio
  | video
  | page
  | table
  | external_link
deriving DecidableEq, Repr

/-- models.py: the `.value` string of each enum member. -/
def AssetType.value : AssetType → String
  | AssetType.image => "image"
  | AssetType.audio => "audio"
  | AssetType.video => "video"
  | AssetType.page => "page"
  | AssetType.table => "table"
  | AssetType.external_link => "external_link"

/-- models.py: `FileAsset` (uuid, name, asset_type, file_path, link_text) and
`ContentAsset` (uuid, name, asset_type, html_content, link_text), the two
shapes `replace_link_and_collect` appends to `inline_assets`. -/
inductive Asset where
  | file (uuid name : String) (asset_type : AssetType) (file_path : String) (link_text : String)
  | content (uuid name : String) (asset_type : AssetType) (html_content : List Seg)
      (link_text : String)
deriving DecidableEq, Repr

/-- The asset stores and the filesystem visible to the hydrator.  File-backed
collections map `_id` to the document's `name`; content collections map `_id`
to the document's `html` (tokenised); `files` maps a path to the file bytes. -/
structure DB where
  images : List (String × String)
  audio : List (String × String)
  videos : List (String × String)
  pages : List (String × List Seg)
  tables : List (String × List Seg)
  files : List (String × List Nat)

/-- MongoDB `collection.find_one with filter _id = key`: first binding wins. -/
def find_one {α : Type} (key : String) : List (String × α) → Option α
  | [] => none
  | (k, v) :: rest => if key = k then some v else find_one key rest

/-- database_helpers.py lines 12-27, `get_asset_type_from_db`: probe Images,
then Audio, then Videos, then Pages, then Tables; first hit wins, else None. -/
def get_asset_type_from_db (db : DB) (asset_id : String) : Option AssetType :=
  if (find_one asset_id db.images).isSome then some AssetType.image
  else if (find_one asset_id db.audio).isSome then some AssetType.audio
  else if (find_one asset_id db.videos).isSome then some AssetType.video
  else if (find_one asset_id db.pages).isSome then some AssetType.page
  else if (find_one asset_id db.tables).isSome then some AssetType.table
  else none

/-- database_helpers.py line 8, `get_asset_document_by_id(asset_id,
collection_name)`, restricted to the file-backed collections (the hydrator
reads only the document's `name` from it; Pages/Tables documents are fetched
through `get_content_asset_html` below).  The deployment's file-backed
collections are `Images`, `Audio` and `Videos` (the names used everywhere
else in the repository); `find_one` against any other collection name finds
nothing. -/
def get_asset_document_by_id (db : DB) (asset_id : String) (collection_name : String) :
    Option String :=
  if collection_name = "Images" then find_one asset_id db.images
  else if collection_name = "Audio" then find_one asset_id db.audio
  else if collection_name = "Videos" then find_one asset_id db.videos
  else none

/-- database_helpers.py lines 29-33, `get_content_asset_html`: collection is
`Pages` if the type is PAGE else `Tables`; returns the document's `html`. -/
def get_content_asset_html (db : DB) (asset_id : String) (asset_type : AssetType) :
    Option (List Seg) :=
  if asset_type = AssetType.page then find_one asset_id db.pages
  else find_one asset_id db.tables

/-- Python `str.capitalize()`: first character upper-cased, rest lower-cased. -/
def capitalize (s : String) : String :=
  match s.toList with
  | [] => ""
  | c :: cs => String.mk (c.toUpper :: cs.map Char.toLower)

/-- Python `str.strip()`: drop leading and trailing whitespace. -/
def py_strip (s : String) : String :=
  String.mk (((s.toList.dropWhile Char.isWhitespace).reverse.dropWhile
    Char.isWhitespace).reverse)

/-- The base64 alphabet used by `base64.b64encode`. -/
def base64Alphabet : String :=
  "ABCDEFGHIJKLMNOPQRSTUVWXYZabcdefghijklmnopqrstuvwxyz0123456789+/"

/-- Character `n` of the base64 alphabet. -/
def b64Char (n : Nat) : Char := base64Alphabet.toList.getD n '='

/-- `base64.b64encode(data).decode("utf-8")` over a byte list. -/
def base64EncodeBytes : List Nat → String
  | [] => ""
  | [a] => String.mk [b64Char (a / 4), b64Char (a % 4 * 16), '=', '=']
  | [a, b] => String.mk [b64Char (a / 4), b64Char (a % 4 * 16 + b / 16),
      b64Char (b % 16 * 4), '=']
  | a :: b :: c :: rest =>
    String.mk [b64Char (a / 4), b64Char (a % 4 * 16 + b / 16),
      b64Char (b % 16 * 4 + c / 64), b64Char (c % 64)] ++ base64EncodeBytes rest

/-- Bool test: does `s` end with `suf`. -/
def str_endsWith (s suf : String) : Bool := List.isSuffixOf suf.toList s.toList

/-- `mimetypes.guess_type(path)[0]`, restricted to the extensions the asset
files of this repository use; unknown extensions guess nothing. -/
def guess_type (path : String) : Option String :=
  if str_endsWith path ".png" then some "image/png"
  else if str_endsWith path ".jpg" then some "image/jpeg"
  else if str_endsWith path ".jpeg" then some "image/jpeg"
  else if str_endsWith path ".gif" then some "image/gif"
  else if str_endsWith path ".mp3" then some "audio/mpeg"
  else if str_endsWith path ".mp4" then some "video/mp4"
  else if str_endsWith path ".wav" then some "audio/x-wav"
  else none

/-- question_service.py lines 149-152: the replacement span built by
`replace_link_and_collect`, embedding the link text and the ordinal
`current_asset_index + 1`. -/
def replacement_html (original_text : String) (ordinal : Nat) : String :=
  "<span style=\"color: #80bfff; text-decoration: underline; cursor: pointer;\">"
    ++ original_text ++ "<sup>[" ++ Nat.repr ordinal ++ "]</sup></span>"

/-- question_service.py lines 158-176, `replace_media_src`: resolve the id;
for a file-backed type fetch the document from `{type.value.capitalize()}s`,
derive the path `assets/{type.value}s/{name}`, read the file and return a
base64 data-URI `src` attribute; a missing file yields `src=""`; every other
case falls through to `src=""`. -/
def replace_media_src (db : DB) (asset_id : String) : String :=
  match get_asset_type_from_db db asset_id with
  | some ty =>
    if ty = AssetType.image ∨ ty = AssetType.audio ∨ ty = AssetType.video then
      match get_asset_document_by_id db asset_id (capitalize ty.value ++ "s") with
      | some docName =>
        let file_path := "assets/" ++ ty.value ++ "s/" ++ docName
        match find_one file_path db.files with
        | some data =>
          "src=\"data:" ++ ((guess_type file_path).getD "application/octet-stream")
            ++ ";base64," ++ base64EncodeBytes data ++ "\""
        | none => "src=\"\""
      | none => "src=\"\""
    else "src=\"\""
  | none => "src=\"\""

/-- One step of the second regex pass (`media_pattern.sub(replace_media_src,
processed_html)`): each `src="[[id]]"` match is rewritten by
`replace_media_src`; all other text is untouched. -/
def mediaPassSeg (db : DB) : Seg → Seg
  | Seg.mediaSrc asset_id => Seg.raw (replace_media_src db asset_id)
  | s => s

/-- Result of one hydration pass: rewritten tokens, the shared asset list, and
the ghost append trace (1-based position at append, ordinal written). -/
abbrev HydResult := List Seg × List Asset × List (Nat × Nat)

/-- The recursive call `self._hydrate_html(html_content, inline_assets,
len(inline_assets))` as seen from inside the link pass. -/
abbrev NestedHyd := List Seg → List Asset → Option HydResult

/-- question_service.py lines 104-156: the first regex pass
(`link_pattern.sub(replace_link_and_collect, raw_html)`), processing anchor
matches left to right.  `nested` performs the recursive hydration of a
page/table fragment's stored markup (it receives the shared list; the start
index it uses is `len(inline_assets)`); `assets` is the shared
`inline_assets` list and `idx` the `current_asset_index` counter. -/
def linkPassAux (db : DB) (nested : NestedHyd) : List Seg → List Asset → Nat → Option HydResult
  | [], assets, _ => some ([], assets, [])
  | Seg.raw s :: rest, assets, idx =>
    (linkPassAux db nested rest assets idx).map
      (fun r => (Seg.raw s :: r.1, r.2.1, r.2.2))
  | Seg.mediaSrc mid :: rest, assets, idx =>
    (linkPassAux db nested rest assets idx).map
      (fun r => (Seg.mediaSrc mid :: r.1, r.2.1, r.2.2))
  | Seg.anchor aid text :: rest, assets, idx =>
    let original_text := py_strip text
    match get_asset_type_from_db db aid with
    | none =>
      (linkPassAux db nested rest assets idx).map
        (fun r => (Seg.raw original_text :: r.1, r.2.1, r.2.2))
    | some ty =>
      if ty = AssetType.image ∨ ty = AssetType.audio ∨ ty = AssetType.video then
        match get_asset_document_by_id db aid (capitalize ty.value ++ "s") with
        | some docName =>
          let asset := Asset.file aid docName ty
            ("assets/" ++ ty.value ++ "s/" ++ docName) original_text
          (linkPassAux db nested rest (assets ++ [asset]) (idx + 1)).map
            (fun r => (Seg.raw (replacement_html original_text (idx + 1)) :: r.1,
              r.2.1, (assets.length + 1, idx + 1) :: r.2.2))
        | none =>
          (linkPassAux db nested rest assets idx).map
            (fun r => (Seg.raw original_text :: r.1, r.2.1, r.2.2))
      else if ty = AssetType.page ∨ ty = AssetType.table then
        match get_content_asset_html db aid ty with
        | some html_content =>
          if html_content.isEmpty then
            (linkPassAux db nested rest assets idx).map
              (fun r => (Seg.raw original_text :: r.1, r.2.1, r.2.2))
          else
            match nested html_content assets with
            | none => none
            | some nr =>
              let asset := Asset.content aid original_text ty
                (nr.1.map (mediaPassSeg db)) original_text
              (linkPassAux db nested rest (nr.2.1 ++ [asset]) (idx + 1)).map
                (fun r => (Seg.raw (replacement_html original_text (idx + 1)) :: r.1,
                  r.2.1, nr.2.2 ++ (nr.2.1.length + 1, idx + 1) :: r.2.2))
        | none =>
          (linkPassAux db nested rest assets idx).map
            (fun r => (Seg.raw original_text :: r.1, r.2.1, r.2.2))
      else
        (linkPassAux db nested rest assets idx).map
          (fun r => (Seg.raw original_text :: r.1, r.2.1, r.2.2))

/-- The link pass with the recursive nested hydration tied off by fuel.  Fuel
is spent only when descending into a nested page/table fragment, the only
self-call of `_hydrate_html`; the source has no depth counter, so a run whose
nesting exceeds every fuel is a run the Python code never completes. -/
def linkPass (db : DB) : Nat → List Seg → List Asset → Nat → Option HydResult
  | 0 => linkPassAux db (fun _ _ => none)
  | fuel + 1 =>
    linkPassAux db (fun html_content assets =>
      linkPass db fuel html_content assets assets.length)

/-- question_service.py lines 94-182, `_hydrate_html(raw_html, inline_assets,
start_index)`: empty input returns immediately; otherwise the link pass runs
first and the media pass rewrites the result. -/
def _hydrate_html (db : DB) (fuel : Nat) (raw_html : List Seg) (inline_assets : List Asset)
    (start_index : Nat) : Option HydResult :=
  if raw_html.isEmpty then some ([], inline_assets, [])
  else
    match linkPass db fuel raw_html inline_assets start_index with
    | none => none
    | some r => some (r.1.map (mediaPassSeg db), r.2.1, r.2.2)

/-- question_service.py lines 184-197, `get_question` (hydration part): one
shared `all_inline_assets` list, body hydrated from index 0, explanation
hydrated with the start index `len(all_inline_assets)` left by the body. -/
def get_question (db : DB) (fuel : Nat) (raw_question_html raw_explanation_html : List Seg) :
    Option (List Seg × List Seg × List Asset) :=
  match _hydrate_html db fuel raw_question_html [] 0 with
  | none => none
  | some qr =>
    match _hydrate_html db fuel raw_explanation_html qr.2.1 qr.2.1.length with
    | none => none
    | some er => some (qr.1, er.1, er.2.1)

/-- True of tokens that are plain text (no placeholder of either grammar). -/
def Seg.isRaw : Seg → Bool
  | Seg.raw _ => true
  | _ => false

/-- True of tokens that are anchor-pattern matches. -/
def Seg.isAnchor : Seg → Bool
  | Seg.anchor _ _ => true
  | _ => false

/-- A ContentAsset whose stored rewritten markup holds no placeholder token;
FileAssets carry no markup, so they satisfy this vacuously. -/
def contentAllRaw : Asset → Prop
  | Asset.file _ _ _ _ _ => True
  | Asset.content _ _ _ html_content _ => ∀ s ∈ html_content, s.isRaw = true

/-- Invariants of one completed hydration pass started on `assets`: the shared
list grew by exactly one append per recorded trace event; the rewritten text
holds no anchor token any more; and every asset now in the list was either
already there or is a ContentAsset whose markup holds no placeholder token. -/
def HydOk (assets : List Asset) (r : HydResult) : Prop :=
  (∃ l, r.2.1 = assets ++ l ∧ l.length = r.2.2.length)
  ∧ (∀ s ∈ r.1, s.isAnchor = false)
  ∧ (∀ a ∈ r.2.1, a ∈ assets ∨ contentAllRaw a)

/-- The first asset appended by a pass (if any) lands at 1-based position
`assets.length + 1` and is labelled with that same ordinal. -/
def FirstOk (assets : List Asset) (r : HydResult) : Prop :=
  r.2.2.head? = none ∨ r.2.2.head? = some (assets.length + 1, assets.length + 1)

theorem mediaPassSeg_isAnchor (db : DB) (s : Seg) :
    (mediaPassSeg db s).isAnchor = s.isAnchor := by
  cases s <;> rfl

theorem seg_not_anchor_isRaw (db : DB) (s : Seg) (h : s.isAnchor = false) :
    (mediaPassSeg db s).isRaw = true := by
  cases s <;> simp_all [mediaPassSeg, Seg.isRaw, Seg.isAnchor]

theorem HydOk_keep (assets : List Asset) (r' : HydResult) (X : Seg)
    (hX : X.isAnchor = false) (h : HydOk assets r') :
    HydOk assets (X :: r'.1, r'.2.1, r'.2.2) := by
  obtain ⟨h1, h2, h3⟩ := h
  refine ⟨h1, ?_, h3⟩
  intro s hs
  rcases List.mem_cons.mp hs with rfl | hs
  · exact hX
  · exact h2 s hs

theorem HydOk_push (assets : List Asset) (A : Asset) (r' : HydResult) (X : Seg) (ord : Nat)
    (hX : X.isAnchor = false) (h : HydOk (assets ++ [A]) r') (hca : contentAllRaw A) :
    HydOk assets (X :: r'.1, r'.2.1, (assets.length + 1, ord) :: r'.2.2) := by
  obtain ⟨⟨l, hl, hlen⟩, h2, h3⟩ := h
  refine ⟨⟨A :: l, ?_, ?_⟩, ?_, ?_⟩
  · rw [hl]; simp
  · simp [hlen]
  · intro s hs
    rcases List.mem_cons.mp hs with rfl | hs
    · exact hX
    · exact h2 s hs
  · intro a ha
    rcases h3 a ha with hmem | hraw
    · rcases List.mem_append.mp hmem with ha' | ha1
      · exact Or.inl ha'
      · rcases List.mem_singleton.mp ha1 with rfl
        exact Or.inr hca
    · exact Or.inr hraw

theorem HydOk_pushNested (assets : List Asset) (A : Asset) (nr r' : HydResult) (X : Seg)
    (ord : Nat) (hX : X.isAnchor = false) (hnok : HydOk assets nr)
    (h : HydOk (nr.2.1 ++ [A]) r') (hca : contentAllRaw A) :
    HydOk assets (X :: r'.1, r'.2.1, nr.2.2 ++ (nr.2.1.length + 1, ord) :: r'.2.2) := by
  obtain ⟨⟨l0, hl0, hlen0⟩, _, hn3⟩ := hnok
  obtain ⟨⟨l1, hl1, hlen1⟩, h2, h3⟩ := h
  refine ⟨⟨l0 ++ A :: l1, ?_, ?_⟩, ?_, ?_⟩
  · rw [hl1, hl0]; simp
  · simp only [List.length_append, List.length_cons]
    omega
  · intro s hs
    rcases List.mem_cons.mp hs with rfl | hs
    · exact hX
    · exact h2 s hs
  · intro a ha
    rcases h3 a ha with hmem | hraw
    · rcases List.mem_append.mp hmem with hmid | hone
      · rcases hn3 a hmid with ha' | hraw'
        · exact Or.inl ha'
        · exact Or.inr hraw'
      · rcases List.mem_singleton.mp hone with rfl
        exact Or.inr hca
    · exact Or.inr hraw

theorem FirstOk_pushNested (assets : List Asset) (nr : HydResult) (rest1 : List Seg)
    (rest2 : List Asset) (t2 : List (Nat × Nat)) (X : Seg) (ord : Nat)
    (hnok : HydOk assets nr) (hnf : FirstOk assets nr) (hord : ord = assets.length + 1) :
    FirstOk assets (X :: rest1, rest2, nr.2.2 ++ (nr.2.1.length + 1, ord) :: t2) := by
  obtain ⟨⟨l0, hl0, hlen0⟩, _, _⟩ := hnok
  rcases hnt : nr.2.2 with _ | ⟨e, t⟩
  · have hl0nil : l0 = [] := List.eq_nil_of_length_eq_zero (by rw [hlen0, hnt]; rfl)
    subst hl0nil
    have hlen : nr.2.1.length = assets.length := by rw [hl0]; simp
    refine Or.inr ?_
    simp [FirstOk, hnt, hlen, hord]
  · rcases hnf with hnone | hsome
    · rw [hnt] at hnone
      simp at hnone
    · rw [hnt] at hsome
      simp only [List.head?_cons, Option.some.injEq] at hsome
      refine Or.inr ?_
      simp [FirstOk, hnt, hsome]

theorem linkPassAux_ok (db : DB) (nested : NestedHyd)
    (hn : ∀ c a r, nested c a = some r → HydOk a r ∧ FirstOk a r) :
    ∀ segs assets idx r, linkPassAux db nested segs assets idx = some r →
      HydOk assets r ∧ (idx = assets.length → FirstOk assets r) := by
  intro segs
  induction segs with
  | nil =>
    intro assets idx r h
    simp only [linkPassAux, Option.some.injEq] at h
    subst h
    exact ⟨⟨⟨[], by simp⟩, by simp, fun a ha => Or.inl ha⟩, fun _ => Or.inl rfl⟩
  | cons s rest ih =>
    intro assets idx r h
    cases s with
    | raw t =>
      simp only [linkPassAux] at h
      obtain ⟨r', hr', rfl⟩ := Option.map_eq_some'.mp h
      obtain ⟨hok, hfst⟩ := ih assets idx r' hr'
      exact ⟨HydOk_keep assets r' _ rfl hok, hfst⟩
    | mediaSrc mid =>
      simp only [linkPassAux] at h
      obtain ⟨r', hr', rfl⟩ := Option.map_eq_some'.mp h
      obtain ⟨hok, hfst⟩ := ih assets idx r' hr'
      exact ⟨HydOk_keep assets r' _ rfl hok, hfst⟩
    | anchor aid text =>
      simp only [linkPassAux] at h
      split at h
      · -- unresolved id: degrade to plain text
        obtain ⟨r', hr', rfl⟩ := Option.map_eq_some'.mp h
        obtain ⟨hok, hfst⟩ := ih assets idx r' hr'
        exact ⟨HydOk_keep assets r' _ rfl hok, hfst⟩
      · -- resolved to some type
        split at h
        · -- file-backed type
          split at h
          · -- document found: append a FileAsset
            obtain ⟨r', hr', rfl⟩ := Option.map_eq_some'.mp h
            obtain ⟨hok, _⟩ := ih _ _ r' hr'
            refine ⟨HydOk_push assets _ r' _ (idx + 1) rfl hok trivial, ?_⟩
            intro hidx
            exact Or.inr (by subst hidx; rfl)
          · -- document missing ("Audios" included): degrade to plain text
            obtain ⟨r', hr', rfl⟩ := Option.map_eq_some'.mp h
            obtain ⟨hok, hfst⟩ := ih assets idx r' hr'
            exact ⟨HydOk_keep assets r' _ rfl hok, hfst⟩
        · split at h
          · -- page/table type
            split at h
            · -- stored markup found
              split at h
              · -- empty markup: degrade to plain text
                obtain ⟨r', hr', rfl⟩ := Option.map_eq_some'.mp h
                obtain ⟨hok, hfst⟩ := ih assets idx r' hr'
                exact ⟨HydOk_keep assets r' _ rfl hok, hfst⟩
              · -- recursive hydration of the fragment
                split at h
                · exact absurd h (by simp)
                · rename_i nr hnr
                  obtain ⟨r', hr', rfl⟩ := Option.map_eq_some'.mp h
                  obtain ⟨hnok, hnf⟩ := hn _ _ _ hnr
                  refine ⟨HydOk_pushNested assets _ nr r' _ (idx + 1) rfl hnok
                    (ih _ _ r' hr').1 ?_, ?_⟩
                  · intro s hs
                    obtain ⟨s0, hs0, rfl⟩ := List.mem_map.mp hs
                    exact seg_not_anchor_isRaw db s0 (hnok.2.1 s0 hs0)
                  · intro hidx
                    exact FirstOk_pushNested assets nr _ _ _ _ (idx + 1) hnok hnf
                      (by rw [hidx])
            · -- stored markup missing: degrade to plain text
              obtain ⟨r', hr', rfl⟩ := Option.map_eq_some'.mp h
              obtain ⟨hok, hfst⟩ := ih assets idx r' hr'
              exact ⟨HydOk_keep assets r' _ rfl hok, hfst⟩
          · -- any other type: degrade to plain text
            obtain ⟨r', hr', rfl⟩ := Option.map_eq_some'.mp h
            obtain ⟨hok, hfst⟩ := ih assets idx r' hr'
            exact ⟨HydOk_keep assets r' _ rfl hok, hfst⟩

theorem linkPass_ok (db : DB) :
    ∀ fuel segs assets idx r, linkPass db fuel segs assets idx = some r →
      HydOk assets r ∧ (idx = assets.length → FirstOk assets r) := by
  intro fuel
  induction fuel with
  | zero =>
    intro segs assets idx r h
    exact linkPassAux_ok db _ (fun c a r hc => by simp at hc) segs assets idx r h
  | succ n ih =>
    intro segs assets idx r h
    exact linkPassAux_ok db _
      (fun c a r hc => ⟨(ih c a a.length r hc).1, (ih c a a.length r hc).2 rfl⟩)
      segs assets idx r h

theorem hydrate_ok (db : DB) (fuel : Nat) (segs : List Seg) (assets : List Asset) (idx : Nat)
    (r : HydResult) (h : _hydrate_html db fuel segs assets idx = some r) :
    HydOk assets r ∧ (idx = assets.length → FirstOk assets r) := by
  unfold _hydrate_html at h
  split at h
  · simp only [Option.some.injEq] at h
    subst h
    exact ⟨⟨⟨[], by simp⟩, by simp, fun a ha => Or.inl ha⟩, fun _ => Or.inl rfl⟩
  · split at h
    · exact absurd h (by simp)
    · rename_i r0 hr0
      simp only [Option.some.injEq] at h
      subst h
      obtain ⟨⟨h1, h2, h3⟩, hfst⟩ := linkPass_ok db fuel segs assets idx r0 hr0
      refine ⟨⟨h1, ?_, h3⟩, hfst⟩
      intro s hs
      obtain ⟨s0, hs0, rfl⟩ := List.mem_map.mp hs
      rw [mediaPassSeg_isAnchor]
      exact h2 s0 hs0

theorem linkPassAux_total (db : DB) (nested : NestedHyd) :
    ∀ segs assets idx,
      (∀ aid text, Seg.anchor aid text ∈ segs →
        get_asset_type_from_db db aid ≠ some AssetType.page ∧
        get_asset_type_from_db db aid ≠ some AssetType.table) →
      (linkPassAux db nested segs assets idx).isSome = true := by
  intro segs
  induction segs with
  | nil => intro assets idx _; simp [linkPassAux]
  | cons s rest ih =>
    intro assets idx hfrag
    have hrest : ∀ aid text, Seg.anchor aid text ∈ rest →
        get_asset_type_from_db db aid ≠ some AssetType.page ∧
        get_asset_type_from_db db aid ≠ some AssetType.table :=
      fun aid text hmem => hfrag aid text (List.mem_cons_of_mem s hmem)
    cases s with
    | raw t =>
      simp only [linkPassAux, Option.isSome_map']
      exact ih assets idx hrest
    | mediaSrc mid =>
      simp only [linkPassAux, Option.isSome_map']
      exact ih assets idx hrest
    | anchor aid text =>
      obtain ⟨hnp, hnt⟩ := hfrag aid text (List.mem_cons_self _ _)
      simp only [linkPassAux]
      split
      · simp only [Option.isSome_map']
        exact ih assets idx hrest
      · rename_i ty hty
        split
        · split
          · simp only [Option.isSome_map']
            exact ih _ _ hrest
          · simp only [Option.isSome_map']
            exact ih assets idx hrest
        · split
          · rename_i hpt
            rcases hpt with rfl | rfl
            · exact absurd hty hnp
            · exact absurd hty hnt
          · simp only [Option.isSome_map']
            exact ih assets idx hrest

theorem linkPass_total (db : DB) (fuel : Nat) (segs : List Seg) (assets : List Asset) (idx : Nat)
    (hfrag : ∀ aid text, Seg.anchor aid text ∈ segs →
      get_asset_type_from_db db aid ≠ some AssetType.page ∧
      get_asset_type_from_db db aid ≠ some AssetType.table) :
    (linkPass db fuel segs assets idx).isSome = true := by
  cases fuel with
  | zero => exact linkPassAux_total db _ segs assets idx hfrag
  | succ n => exact linkPassAux_total db _ segs assets idx hfrag

theorem linkPassAux_raw_id (db : DB) (nested : NestedHyd) :
    ∀ segs assets idx, (∀ s ∈ segs, s.isRaw = true) →
      linkPassAux db nested segs assets idx = some (segs, assets, []) := by
  intro segs
  induction segs with
  | nil => intro assets idx _; rfl
  | cons s rest ih =>
    intro assets idx hraw
    cases s with
    | raw t =>
      simp only [linkPassAux]
      rw [ih assets idx (fun s hs => hraw s (List.mem_cons_of_mem _ hs))]
      rfl
    | mediaSrc mid => exact absurd (hraw _ (List.mem_cons_self _ _)) (by simp [Seg.isRaw])
    | anchor aid text => exact absurd (hraw _ (List.mem_cons_self _ _)) (by simp [Seg.isRaw])

theorem mediaPass_raw_id (db : DB) :
    ∀ segs : List Seg, (∀ s ∈ segs, s.isRaw = true) → segs.map (mediaPassSeg db) = segs := by
  intro segs
  induction segs with
  | nil => intro _; rfl
  | cons s rest ih =>
    intro hraw
    cases s with
    | raw t =>
      simp only [List.map_cons, mediaPassSeg]
      rw [ih (fun s hs => hraw s (List.mem_cons_of_mem _ hs))]
    | mediaSrc mid => exact absurd (hraw _ (List.mem_cons_self _ _)) (by simp [Seg.isRaw])
    | anchor aid text => exact absurd (hraw _ (List.mem_cons_self _ _)) (by simp [Seg.isRaw])

theorem hydrate_raw_id (db : DB) (fuel : Nat) (segs : List Seg) (assets : List Asset) (idx : Nat)
    (hraw : ∀ s ∈ segs, s.isRaw = true) :
    _hydrate_html db fuel segs assets idx = some (segs, assets, []) := by
  unfold _hydrate_html
  split
  · rename_i hemp
    rw [List.isEmpty_iff.mp hemp]
  · have hlp : linkPass db fuel segs assets idx = some (segs, assets, []) := by
      cases fuel with
      | zero => exact linkPassAux_raw_id db _ segs assets idx hraw
      | succ n => exact linkPassAux_raw_id db _ segs assets idx hraw
    rw [hlp]
    simp only [Option.some.injEq]
    exact congrArg (fun x => (x, assets, [])) (mediaPass_raw_id db segs hraw)

theorem linkPass_dangling (db : DB) (aid text : String) (assets : List Asset) (idx : Nat)
    (h : get_asset_type_from_db db aid = none) :
    ∀ fuel, linkPass db fuel [Seg.anchor aid text] assets idx =
      some ([Seg.raw (py_strip text)], assets, []) := by
  have haux : ∀ nested : NestedHyd, linkPassAux db nested [Seg.anchor aid text] assets idx =
      some ([Seg.raw (py_strip text)], assets, []) := by
    intro nested
    simp [linkPassAux, h]
  intro fuel
  cases fuel with
  | zero => exact haux _
  | succ n => exact haux _

theorem hydrate_dangling (db : DB) (fuel : Nat) (aid text : String) (assets : List Asset)
    (idx : Nat) (h : get_asset_type_from_db db aid = none) :
    _hydrate_html db fuel [Seg.anchor aid text] assets idx =
      some ([Seg.raw (py_strip text)], assets, []) := by
  unfold _hydrate_html
  rw [linkPass_dangling db aid text assets idx h fuel]
  rfl

theorem replace_media_src_fallback (db : DB) (aid : String)
    (h : get_asset_type_from_db db aid = none ∨
         get_asset_type_from_db db aid = some AssetType.page ∨
         get_asset_type_from_db db aid = some AssetType.table ∨
         (∃ ty, get_asset_type_from_db db aid = some ty ∧
           (ty = AssetType.image ∨ ty = AssetType.audio ∨ ty = AssetType.video) ∧
           get_asset_document_by_id db aid (capitalize ty.value ++ "s") = none)) :
    replace_media_src db aid = "src=\"\"" := by
  unfold replace_media_src
  rcases h with h | h | h | ⟨ty, hty, hft, hdoc⟩
  · rw [h]
  · rw [h]; simp
  · rw [h]; simp
  · rcases hft with rfl | rfl | rfl <;> simp [hty, hdoc]

theorem hydrate_mediaSrc (db : DB) (fuel : Nat) (aid : String) (assets : List Asset) (idx : Nat)
    (h : get_asset_type_from_db db aid = none ∨
         get_asset_type_from_db db aid = some AssetType.page ∨
         get_asset_type_from_db db aid = some AssetType.table ∨
         (∃ ty, get_asset_type_from_db db aid = some ty ∧
           (ty = AssetType.image ∨ ty = AssetType.audio ∨ ty = AssetType.video) ∧
           get_asset_document_by_id db aid (capitalize ty.value ++ "s") = none)) :
    _hydrate_html db fuel [Seg.mediaSrc aid] assets idx =
      some ([Seg.raw "src=\"\""], assets, []) := by
  have haux : linkPass db fuel [Seg.mediaSrc aid] assets idx =
      some ([Seg.mediaSrc aid], assets, []) := by
    cases fuel with
    | zero => rfl
    | succ n => rfl
  unfold _hydrate_html
  rw [haux]
  simp only [List.isEmpty_cons, Bool.false_eq_true, if_false, List.map_cons, List.map_nil,
    mediaPassSeg, Option.some.injEq]
  rw [replace_media_src_fallback db aid h]

/-- A store holding one page fragment whose own markup is a single image
placeholder: the nested scenario of §8 of the spec. -/
def dbNest : DB :=
  ⟨[("i1", "ct.png")], [], [], [("p1", [Seg.anchor "i1" "scan"])], [], []⟩

/-- A store with a page fragment that references itself: `Pages` holds a
document whose html is `<a href="[[p]]">loop</a>` under the id `p`. -/
def dbCyc : DB :=
  ⟨[], [], [], [("p", [Seg.anchor "p" "loop"])], [], []⟩

theorem cyc_linkPass_none :
    ∀ fuel, linkPass dbCyc fuel [Seg.anchor "p" "loop"] [] 0 = none := by
  intro fuel
  induction fuel with
  | zero => decide
  | succ n ih =>
    have h1 : get_asset_type_from_db dbCyc "p" = some AssetType.page := by decide
    have h2 : get_content_asset_html dbCyc "p" AssetType.page =
        some [Seg.anchor "p" "loop"] := by decide
    simp [linkPass, linkPassAux, h1, h2, ih]

theorem cyc_hydrate_none :
    ∀ fuel, _hydrate_html dbCyc fuel [Seg.anchor "p" "loop"] [] 0 = none := by
  intro fuel
  unfold _hydrate_html
  rw [cyc_linkPass_none fuel]
  rfl

/-- The recursive expansion of `segs` outgrows every recursion budget: the
Python original, which threads no depth parameter, never returns on it. -/
def hydrationDiverges (db : DB) (segs : List Seg) : Prop :=
  ∀ fuel, _hydrate_html db fuel segs [] 0 = none

theorem find_one_isSome_iff {α : Type} (key : String) :
    ∀ l : List (String × α), (find_one key l).isSome = true ↔ key ∈ l.map Prod.fst := by
  intro l
  induction l with
  | nil => simp [find_one]
  | cons p rest ih =>
    obtain ⟨k, v⟩ := p
    simp only [find_one, List.map_cons, List.mem_cons]
    split
    · rename_i hk
      simp [hk]
    · rename_i hk
      simp [hk, ih]

/-- The ids present in one store, in stored order. -/
def storeIds {α : Type} (l : List (String × α)) : List String := l.map Prod.fst

/-- Modelled from the spec: the Resolver's fixed probe order — image store,
then audio, then video, then page-fragment store, then table-fragment store. -/
def resolveProbeOrder (db : DB) : List (List String × AssetType) :=
  [(storeIds db.images, AssetType.image), (storeIds db.audio, AssetType.audio),
   (storeIds db.videos, AssetType.video), (storeIds db.pages, AssetType.page),
   (storeIds db.tables, AssetType.table)]

/-- Modelled from the spec: `resolve_kind` returns the kind of the first store
in the probe order containing a document with the given id, else nothing. -/
def resolve_kind_spec (db : DB) (asset_id : String) : Option AssetType :=
  ((resolveProbeOrder db).find? (fun p => decide (asset_id ∈ p.1))).map Prod.snd

/-- A store with one image (`i1` named `a.png`) and one audio document (`a1`
named `s.mp3`, stored in the `Audio` collection as everywhere in the
repository), whose backing files are all present — both under the
`assets/audio/` convention used by `_fetch_raw_question_by_id` and under the
`assets/audios/` path that `replace_media_src` itself would derive. -/
def dbAudio : DB :=
  ⟨[("i1", "a.png")], [("a1", "s.mp3")], [], [], [],
   [("assets/audio/s.mp3", [1, 2, 3]), ("assets/audios/s.mp3", [1, 2, 3]),
    ("assets/images/a.png", [1, 2, 3])]⟩

/-- A deployment with no assets at all. -/
def dbEmpty : DB := ⟨[], [], [], [], [], []⟩

/-- Three images, for the cross-field numbering scenario. -/
def dbThree : DB :=
  ⟨[("i", "n.png"), ("j", "n.png"), ("k", "n.png")], [], [], [], [], []⟩

def fileAsset1 : Asset := Asset.file "i" "n.png" AssetType.image "assets/images/n.png" "x"

def fileAsset2 : Asset := Asset.file "j" "n.png" AssetType.image "assets/images/n.png" "y"

def fileAsset3 : Asset := Asset.file "k" "n.png" AssetType.image "assets/images/n.png" "z"

theorem get_asset_type_eq_spec (db : DB) (aid : String) :
    get_asset_type_from_db db aid = resolve_kind_spec db aid := by
  by_cases h1 : aid ∈ storeIds db.images <;>
  by_cases h2 : aid ∈ storeIds db.audio <;>
  by_cases h3 : aid ∈ storeIds db.videos <;>
  by_cases h4 : aid ∈ storeIds db.pages <;>
  by_cases h5 : aid ∈ storeIds db.tables <;>
  simp_all [get_asset_type_from_db, resolve_kind_spec, resolveProbeOrder, List.find?,
    find_one_isSome_iff, storeIds]

/-- The FileAsset the nested pass of the dbNest scenario records. -/
def nestImgAsset : Asset :=
  Asset.file "i1" "ct.png" AssetType.image "assets/images/ct.png" "scan"

/-- The ContentAsset the outer pass of the dbNest scenario records. -/
def nestPageAsset : Asset :=
  Asset.content "p1" "see" AssetType.page [Seg.raw (replacement_html "scan" 1)] "see"

/-- Claim C1, refuted by evaluation: hydrating a body holding one anchor to
page `p1`, whose stored markup holds one image anchor, appends the nested
FileAsset at position 1 labelled with ordinal 1, then appends the outer
ContentAsset at position 2 — yet labels it with ordinal 1 as well, because the
outer `current_asset_index` does not account for the appends the nested
recursive call performed.  The trace (position at append, ordinal written) is
[(1, 1), (2, 1)]: the second ordinal differs from the position at append time
and ordinal 1 is used twice. -/
theorem C1_nested_ordinal_bug :
    _hydrate_html dbNest 1 [Seg.anchor "p1" "see"] [] 0 =
      some ([Seg.raw (replacement_html "see" 1)], [nestImgAsset, nestPageAsset],
        [(1, 1), (2, 1)]) := by
  decide

/-- Claim C2: every ContentAsset present after a completed hydration pass was
either already in the caller's list or carries rendered markup with no
remaining placeholder token (the nested markup is hydrated to a fixed point
before the asset is wrapped); and the concrete scenario — one body reference
to a page fragment which itself holds exactly one image placeholder — yields a
shared asset list of length 2 (the nested FileAsset recorded through the same
shared list during the recursive call, then the outer ContentAsset). -/
theorem C2_nested_content_hydrated :
    (∀ db fuel segs assets idx r, _hydrate_html db fuel segs assets idx = some r →
      ∀ a ∈ r.2.1, a ∈ assets ∨ contentAllRaw a)
    ∧ (_hydrate_html dbNest 1 [Seg.anchor "p1" "see"] [] 0).map (fun r => r.2.1) =
        some [nestImgAsset, nestPageAsset] := by
  constructor
  · intro db fuel segs assets idx r h
    exact (hydrate_ok db fuel segs assets idx r h).1.2.2
  · decide

theorem C2_witness :
    nestPageAsset ∈ ([] : List Asset) ∨ contentAllRaw nestPageAsset :=
  C2_nested_content_hydrated.1 dbNest 1 [Seg.anchor "p1" "see"] [] 0
    ([Seg.raw (replacement_html "see" 1)], [nestImgAsset, nestPageAsset], [(1, 1), (2, 1)])
    (by decide) nestPageAsset (by decide)

/-- Claim C3, refuted: `_hydrate_html` threads no recursion depth parameter at
all; on a store whose page `p` references itself, the recursive expansion
outgrows every recursion budget, so hydration never completes (the Python
original recurses without bound until the interpreter kills it) instead of
degrading the over-deep occurrence to plain link text. -/
theorem C3_no_depth_ceiling :
    ∀ fuel, _hydrate_html dbCyc fuel [Seg.anchor "p" "loop"] [] 0 = none :=
  fun fuel => cyc_hydrate_none fuel

theorem C3_witness : _hydrate_html dbCyc 8 [Seg.anchor "p" "loop"] [] 0 = none :=
  C3_no_depth_ceiling 8

/-- Claim C4: the shared asset list is append-only — every completed hydration
call (including every recursive call, which runs through the same function)
returns the caller's list extended by a suffix, never reordered, shortened or
with existing elements replaced; the embedding is pure, so store lookups have
no effect on any state. -/
theorem C4_append_only :
    ∀ db fuel segs assets idx r, _hydrate_html db fuel segs assets idx = some r →
      ∃ l, r.2.1 = assets ++ l := by
  intro db fuel segs assets idx r h
  obtain ⟨⟨l, hl, _⟩, _, _⟩ := (hydrate_ok db fuel segs assets idx r h).1
  exact ⟨l, hl⟩

theorem C4_witness : ∃ l, [fileAsset1, fileAsset2] = [fileAsset1] ++ l :=
  C4_append_only dbThree 0 [Seg.anchor "j" "y"] [fileAsset1] 1
    ([Seg.raw (replacement_html "y" 2)], [fileAsset1, fileAsset2], [(2, 2)]) (by decide)

/-- Claim C5: mirroring the two calls of `get_question` — body hydrated into
an empty shared list from index 0, then explanation hydrated with start index
`len(all_inline_assets)` — the first asset recorded during the explanation
pass lands one past the body's assets and carries that same ordinal: a body
pass ending with 2 recorded assets gives the first explanation asset ordinal
3, and numbering never restarts at 1. -/
theorem C5_cross_field_continuity :
    ∀ db fuel qsegs esegs qr er p,
      _hydrate_html db fuel qsegs [] 0 = some qr →
      _hydrate_html db fuel esegs qr.2.1 qr.2.1.length = some er →
      er.2.2.head? = some p →
      p = (qr.2.1.length + 1, qr.2.1.length + 1)
      ∧ (qr.2.1.length = 2 → p.2 = 3)
      ∧ (1 ≤ qr.2.1.length → p.2 ≠ 1) := by
  intro db fuel qsegs esegs qr er p hq he hp
  have h1 : p = (qr.2.1.length + 1, qr.2.1.length + 1) := by
    rcases (hydrate_ok db fuel esegs qr.2.1 qr.2.1.length er he).2 rfl with hnone | hsome
    · rw [hp] at hnone
      cases hnone
    · rw [hp] at hsome
      exact Option.some.inj hsome
  subst h1
  refine ⟨rfl, fun h2 => by rw [h2], fun hge => (by omega : qr.2.1.length + 1 ≠ 1)⟩

theorem C5_witness :
    ((3, 3) : Nat × Nat) = (3, 3) ∧ ((2 : Nat) = 2 → ((3, 3) : Nat × Nat).2 = 3)
      ∧ (1 ≤ (2 : Nat) → ((3, 3) : Nat × Nat).2 ≠ 1) :=
  C5_cross_field_continuity dbThree 0 [Seg.anchor "i" "x", Seg.anchor "j" "y"]
    [Seg.anchor "k" "z"]
    ([Seg.raw (replacement_html "x" 1), Seg.raw (replacement_html "y" 2)],
      [fileAsset1, fileAsset2], [(1, 1), (2, 2)])
    ([Seg.raw (replacement_html "z" 3)], [fileAsset1, fileAsset2, fileAsset3], [(3, 3)])
    (3, 3) (by decide) (by decide) rfl

/-- Claim C6 counterexample: a dangling anchor whose link text carries
surrounding whitespace is rewritten to the stripped text "pad", not to the
verbatim link text " pad " the claim requires. -/
theorem C6_strip_counterexample :
    _hydrate_html dbEmpty 0 [Seg.anchor "x" " pad "] [] 0 =
      some ([Seg.raw "pad"], [], []) ∧ (" pad " : String) ≠ "pad" := by
  constructor
  · decide
  · decide

/-- Claim C6 as amended: an anchor placeholder whose id matches no store
(including the empty id token) is replaced by its link text with leading and
trailing whitespace stripped (the source applies Python str.strip), with no
surrounding markup, and nothing is appended to the shared asset list. -/
theorem C6_dangling_plain_text :
    ∀ db fuel aid text assets idx, get_asset_type_from_db db aid = none →
      _hydrate_html db fuel [Seg.anchor aid text] assets idx =
        some ([Seg.raw (py_strip text)], assets, []) :=
  fun db fuel aid text assets idx h => hydrate_dangling db fuel aid text assets idx h

theorem C6_witness :
    _hydrate_html dbEmpty 3 [Seg.anchor "" " pad two "] [] 0 =
      some ([Seg.raw (py_strip " pad two ")], [], []) :=
  C6_dangling_plain_text dbEmpty 3 "" " pad two " [] 0 (by decide)

/-- Claim C7: the type resolver agrees everywhere with the spec's ordered-probe
contract — the first store in the order image, audio, video, page-fragment,
table-fragment containing a document with the id determines the kind, and a
total miss is the `none` result (the function is total: a missing id is a
first-class result, never a failure). -/
theorem C7_probe_order :
    ∀ db aid, get_asset_type_from_db db aid = resolve_kind_spec db aid :=
  fun db aid => get_asset_type_eq_spec db aid

theorem C7_witness : get_asset_type_from_db dbAudio "zzz" = resolve_kind_spec dbAudio "zzz" :=
  C7_probe_order dbAudio "zzz"

/-- Claim C8, refuted at the audio case: `a1` resolves to the audio kind and
its backing file exists (both under the repository's `assets/audio/` layout
and under the `assets/audios/` path the rewriter itself would derive), yet the
media rewrite emits the empty source `src=""`: `replace_media_src` derives the
collection name `Audios` via `capitalize(value) + "s"`, a collection that does
not exist — the rest of the code stores audio documents in `Audio` — so the
document lookup fails.  The image conjunct shows the data-URI substitution the
claim expects does happen when the derived collection name is right. -/
theorem C8_audio_embed_bug :
    get_asset_type_from_db dbAudio "a1" = some AssetType.audio
    ∧ (find_one "assets/audio/s.mp3" dbAudio.files).isSome = true
    ∧ (find_one "assets/audios/s.mp3" dbAudio.files).isSome = true
    ∧ capitalize AssetType.audio.value ++ "s" = "Audios"
    ∧ get_asset_document_by_id dbAudio "a1" "Audios" = none
    ∧ replace_media_src dbAudio "a1" = "src=\"\""
    ∧ replace_media_src dbAudio "i1" = "src=\"data:image/png;base64,AQID\"" := by
  decide

/-- Claim C9 counterexample: hydration is not total over arbitrary store
contents — with a self-referencing page fragment in the store, one anchor to
it makes the recursive expansion outgrow every recursion budget, so the
original (which has no guard) never returns a best-effort text on this input.
-/
theorem C9_cycle_counterexample : hydrationDiverges dbCyc [Seg.anchor "p" "loop"] :=
  fun fuel => cyc_hydrate_none fuel

/-- Claim C9 as amended: hydration is best-effort whenever fragment expansion
terminates: (i) text with no placeholder token is returned unchanged with the
asset list unchanged; (ii) a resolved file-backed media embed whose document
was found but whose physical file is absent degrades to an empty source
attribute instead of failing; (iii) any input whose anchors resolve to no
page/table fragment hydrates successfully at every recursion budget.  Only
nested fragment references deeper than every budget (e.g. cyclic ones)
diverge. -/
theorem C9_best_effort :
    (∀ db fuel segs assets idx, (∀ s ∈ segs, s.isRaw = true) →
      _hydrate_html db fuel segs assets idx = some (segs, assets, []))
    ∧ (∀ db aid docName ty,
        (ty = AssetType.image ∨ ty = AssetType.audio ∨ ty = AssetType.video) →
        get_asset_type_from_db db aid = some ty →
        get_asset_document_by_id db aid (capitalize ty.value ++ "s") = some docName →
        find_one ("assets/" ++ ty.value ++ "s/" ++ docName) db.files = none →
        replace_media_src db aid = "src=\"\"")
    ∧ (∀ db fuel segs assets idx,
        (∀ aid text, Seg.anchor aid text ∈ segs →
          get_asset_type_from_db db aid ≠ some AssetType.page ∧
          get_asset_type_from_db db aid ≠ some AssetType.table) →
        (_hydrate_html db fuel segs assets idx).isSome = true) := by
  refine ⟨?_, ?_, ?_⟩
  · intro db fuel segs assets idx hraw
    exact hydrate_raw_id db fuel segs assets idx hraw
  · intro db aid docName ty hft hty hdoc hfile
    unfold replace_media_src
    rcases hft with rfl | rfl | rfl <;> rw [hty] <;> simp [hdoc, hfile]
  · intro db fuel segs assets idx hfrag
    unfold _hydrate_html
    split
    · rfl
    · have htot := linkPass_total db fuel segs assets idx hfrag
      rcases hlp : linkPass db fuel segs assets idx with _ | r0
      · rw [hlp] at htot
        simp at htot
      · rfl

theorem C9_witness :
    _hydrate_html dbEmpty 0 [Seg.raw "plain"] [] 0 = some ([Seg.raw "plain"], [], [])
    ∧ replace_media_src dbNest "i1" = "src=\"\""
    ∧ (_hydrate_html dbThree 2 [Seg.anchor "i" "x", Seg.mediaSrc "q"] [] 0).isSome = true := by
  refine ⟨C9_best_effort.1 dbEmpty 0 [Seg.raw "plain"] [] 0 (by decide),
    C9_best_effort.2.1 dbNest "i1" "ct.png" AssetType.image (Or.inl rfl) (by decide)
      (by decide) (by decide),
    C9_best_effort.2.2 dbThree 2 [Seg.anchor "i" "x", Seg.mediaSrc "q"] [] 0 ?_⟩
  intro aid text hmem
  rcases List.mem_cons.mp hmem with heq | hmem2
  · simp only [Seg.anchor.injEq] at heq
    obtain ⟨rfl, rfl⟩ := heq
    exact ⟨by decide, by decide⟩
  · rcases List.mem_cons.mp hmem2 with heq2 | hnil
    · simp at heq2
    · simp at hnil

/-- Claim C10: a media-embed occurrence whose id matches no store, or resolves
to a page/table kind, or whose document lookup yields nothing, is rewritten to
the empty source attribute `src=""`: the placeholder never survives into the
output, the element keeps its tag (only the source attribute is replaced, the
occurrence is not degraded to plain text), and nothing is appended to the
shared asset list. -/
theorem C10_media_fallback :
    ∀ db fuel aid assets idx,
      (get_asset_type_from_db db aid = none ∨
       get_asset_type_from_db db aid = some AssetType.page ∨
       get_asset_type_from_db db aid = some AssetType.table ∨
       (∃ ty, get_asset_type_from_db db aid = some ty ∧
         (ty = AssetType.image ∨ ty = AssetType.audio ∨ ty = AssetType.video) ∧
         get_asset_document_by_id db aid (capitalize ty.value ++ "s") = none)) →
      _hydrate_html db fuel [Seg.mediaSrc aid] assets idx =
        some ([Seg.raw "src=\"\""], assets, []) :=
  fun db fuel aid assets idx h => hydrate_mediaSrc db fuel aid assets idx h

theorem C10_witness :
    _hydrate_html dbNest 1 [Seg.mediaSrc "p1"] [] 0 = some ([Seg.raw "src=\"\""], [], []) :=
  C10_media_fallback dbNest 1 "p1" [] 0 (Or.inr (Or.inl (by decide)))
